import Mathlib

/-!
Verification of the leave-day selection engine (`src/public/src/src/App.js`).

The engine works on timezone-naive calendar days.  In the source every date
crossing a component boundary is a canonical `YYYY-MM-DD` string, and the
string order on canonical date strings coincides with chronological order,
so we embed a calendar day as its day number: an `Int` counting days since
1970-01-01 (the day named by the string, not a timestamp).  JavaScript
`Date` objects appear in the source only as internal scratch values of a
single operation; at UTC (`formatDate ∘ parseDate = id`) they also denote
the calendar day, so the date-arithmetic helpers below are functions on day
numbers.  The timezone-dependence of `formatDate`/`parseDate` itself is
modelled separately (see `tzParseDate`/`tzFormatDate`).
-/

/-- A calendar day, as days since 1970-01-01 (canonical `YYYY-MM-DD` strings
are in order-preserving bijection with these). -/
abbrev Day := Int

/-- Civil-calendar fields `(year, month 1-12, day 1-31)` of a day number
(standard proleptic-Gregorian conversion). -/
def civilFromDays (n : Day) : Int × Nat × Nat :=
  let z := n + 719468
  let era : Int := z.fdiv 146097
  let doe : Nat := (z - era * 146097).toNat
  let yoe : Nat := (doe - doe / 1460 + doe / 36524 - doe / 146096) / 365
  let y : Int := (yoe : Int) + era * 400
  let doy : Nat := doe - (365 * yoe + yoe / 4 - yoe / 100)
  let mp : Nat := (5 * doy + 2) / 153
  let d : Nat := doy - (153 * mp + 2) / 5 + 1
  let m : Nat := if mp < 10 then mp + 3 else mp - 9
  (if m ≤ 2 then y + 1 else y, m, d)

/-- Day number of the civil date `(y, m 1-12, d)` (inverse of
`civilFromDays`). -/
def daysFromCivil (y : Int) (m d : Nat) : Day :=
  let y2 : Int := if m ≤ 2 then y - 1 else y
  let era : Int := y2.fdiv 400
  let yoe : Nat := (y2 - era * 400).toNat
  let mp : Nat := (m + 9) % 12
  let doy : Nat := (153 * mp + 2) / 5 + d - 1
  let doe : Nat := yoe * 365 + yoe / 4 - yoe / 100 + doy
  era * 146097 + (doe : Int) - 719468

/-- Convenience constructor for concrete dates in theorems:
`dateYmd 2025 7 7` is the day named by the string `2025-07-07`. -/
def dateYmd (y : Int) (m d : Nat) : Day :=
  daysFromCivil y m d

/-- JS `Date.prototype.getDay`: weekday, 0 = Sunday .. 6 = Saturday
(1970-01-01 was a Thursday, weekday 4). -/
def getDay (date : Day) : Nat :=
  ((date + 4) % 7).toNat

/-- JS `Date.prototype.getFullYear`. -/
def getFullYear (date : Day) : Int :=
  (civilFromDays date).1

/-- JS `Date.prototype.getMonth`: month, 0 = January .. 11 = December. -/
def getMonth (date : Day) : Nat :=
  (civilFromDays date).2.1 - 1

/-- Source `getWeekStart` (App.js:47-52): Monday-anchored week start.  The
source computes `d.getDate() - day + (day === 0 ? -6 : 1)` and re-sets the
day-of-month, which shifts the day number by `-day + (day === 0 ? -6 : 1)`. -/
def getWeekStart (date : Day) : Day :=
  let day := getDay date
  date - day + (if day == 0 then -6 else 1)

/-- Source `getWeekEnd` (App.js:54-57): week start plus six days (the source
adds `6 * 24 * 60 * 60 * 1000` milliseconds). -/
def getWeekEnd (date : Day) : Day :=
  getWeekStart date + 6

/-- Source `getMonthStart` (App.js:59-61): `new Date(y, m, 1)`, the first
day of the date's month. -/
def getMonthStart (date : Day) : Day :=
  daysFromCivil (getFullYear date) (getMonth date + 1) 1

/-- Source `getMonthEnd` (App.js:63-65): `new Date(y, m + 1, 0)`, which JS
normalises to the day before the first day of the next month (month
index 12 rolls over to January of the next year). -/
def getMonthEnd (date : Day) : Day :=
  (if getMonth date == 11 then
    daysFromCivil (getFullYear date + 1) 1 1
  else
    daysFromCivil (getFullYear date) (getMonth date + 2) 1) - 1

/-- Source `isDateInRange` (App.js:67-69): inclusive range membership.  The
source compares canonical `YYYY-MM-DD` strings lexicographically, which is
exactly the order on day numbers. -/
def isDateInRange (date start endDate : Day) : Bool :=
  start ≤ date && date ≤ endDate

/-! ## Data model (App.js:4-36)

Display-only fields (`name`, `color`, `notes`, `createdAt`, `updatedAt`)
play no role in the engine and are omitted. -/

/-- Source `date_window` of `LeaveRules` (App.js:6): inclusive calendar-date
bounds (`end` is a Lean keyword, so the field is `endDate`). -/
structure DateWindow where
  start : Day
  endDate : Day
deriving Repr, DecidableEq

/-- Source `quotas` of `LeaveRules` (App.js:8-12): each dimension is either
absent (no limit) or carries its configured maximum. -/
structure Quotas where
  weekly : Option Nat
  weeks_per_month : Option Nat
  total : Option Nat
deriving Repr, DecidableEq

/-- Source `LeaveRules` (App.js:5-13).  The source nests the optional
day-of-week list as `eligibility_filters?.days_of_week?`; the engine only
ever reads it through that optional chain (App.js:235), so the two optional
levels collapse to one. -/
structure LeaveRules where
  date_window : DateWindow
  eligibility_filters : Option (List Nat)
  quotas : Quotas
deriving Repr, DecidableEq

/-- Source `LeaveType` (App.js:15-21), engine-relevant fields. -/
structure LeaveType where
  id : String
  rules : LeaveRules
deriving Repr, DecidableEq

/-- Source `Assignment` (App.js:23-29), engine-relevant fields. -/
structure Assignment where
  id : String
  date : Day
  leaveTypeId : String
deriving Repr, DecidableEq

/-- A JS number that is either `Infinity` or a finite integer: the type of
`(max ?? Infinity) - used` in `calculateQuotas` (App.js:217-219). -/
inductive ENum where
  | inf
  | fin (z : Int)
deriving Repr, DecidableEq

/-- `max_days ?? Infinity` / `max_weeks ?? Infinity`: an absent quota
maximum reads as `Infinity`. -/
def ENum.ofOption : Option Nat → ENum
  | none => .inf
  | some m => .fin m

/-- Subtraction of a finite count from a possibly-infinite maximum
(`Infinity - used = Infinity` in JS). -/
def ENum.sub : ENum → Int → ENum
  | .inf, _ => .inf
  | .fin a, b => .fin (a - b)

/-- The JS comparison `x <= 0` on a possibly-infinite number
(`Infinity <= 0` is `false`). -/
def ENum.leZero : ENum → Bool
  | .inf => false
  | .fin a => a ≤ 0

/-- `used` record of the `calculateQuotas` result (App.js:211-215). -/
structure QuotaUsed where
  weekly : Nat
  weeksThisMonth : Nat
  total : Nat
deriving Repr, DecidableEq

/-- `remaining` record of the `calculateQuotas` result (App.js:216-220). -/
structure QuotaRemaining where
  weekly : ENum
  weeksThisMonth : ENum
  total : ENum
deriving Repr, DecidableEq

/-- Result of `calculateQuotas` for a found category (App.js:210-221). -/
structure QuotaResult where
  used : QuotaUsed
  remaining : QuotaRemaining
deriving Repr, DecidableEq

/-- Result of `isLeaveEligibleForDate` (App.js:225):
`{ eligible: boolean; reason?: string }`. -/
structure EligResult where
  eligible : Bool
  reason : Option String
deriving Repr, DecidableEq

/-! ## Quota evaluator (App.js:171-222) -/

/-- Body of `calculateQuotas` (App.js:175-221) once the category record has
been found.  The source filters by the `leaveTypeId` argument; the `find`
guard makes that equal to `leaveType.id`.  The week/month bounds are
computed from the target date object and compared to assignment dates via
`isDateInRange` on formatted strings, which on day numbers is direct
comparison. -/
def quotasFor (leaveType : LeaveType) (assignments : List Assignment)
    (targetDateObj : Day) : QuotaResult :=
  let leaveAssignments := assignments.filter (fun a => a.leaveTypeId == leaveType.id)
  let weekStartStr := getWeekStart targetDateObj
  let weekEndStr := getWeekEnd targetDateObj
  let usedThisWeek :=
    (leaveAssignments.filter (fun a => isDateInRange a.date weekStartStr weekEndStr)).length
  let monthStartStr := getMonthStart targetDateObj
  let monthEndStr := getMonthEnd targetDateObj
  let monthlyAssignments :=
    leaveAssignments.filter (fun a => isDateInRange a.date monthStartStr monthEndStr)
  let weeksUsedThisMonth :=
    ((monthlyAssignments.map (fun a => getWeekStart a.date)).dedup).length
  let totalUsed := leaveAssignments.length
  { used := ⟨usedThisWeek, weeksUsedThisMonth, totalUsed⟩
    remaining :=
      ⟨(ENum.ofOption leaveType.rules.quotas.weekly).sub usedThisWeek,
       (ENum.ofOption leaveType.rules.quotas.weeks_per_month).sub weeksUsedThisMonth,
       (ENum.ofOption leaveType.rules.quotas.total).sub totalUsed⟩ }

/-- Source `calculateQuotas` (App.js:171-222).  A missing category returns
`{ used: {}, remaining: {} }` — two empty objects whose fields are all
`undefined` — modelled as `none`.  `targetDate ? parseDate(targetDate) :
new Date()` is the explicit `now` parameter when no target date is given
(the clock is an input of the embedding, not hidden state). -/
def calculateQuotas (leaveTypes : List LeaveType) (assignments : List Assignment)
    (leaveTypeId : String) (targetDate : Option Day) (now : Day) : Option QuotaResult :=
  match leaveTypes.find? (fun lt => lt.id == leaveTypeId) with
  | none => none
  | some leaveType => some (quotasFor leaveType assignments (targetDate.getD now))

/-! ## Eligibility evaluator (App.js:225-298) -/

/-- Guard of the day-of-week check (App.js:235-241): a filter is configured
and the date's weekday is not in it. -/
def dayOfWeekBlocked (leaveType : LeaveType) (date : Day) : Bool :=
  match leaveType.rules.eligibility_filters with
  | some days_of_week => !(days_of_week.contains (getDay date))
  | none => false

/-- The distinct week-start days used by a category inside the given date's
month: the `weeksUsed` set of App.js:277-287 (membership in the set is
`dedup`-insensitive, and its `size` is the dedup length). -/
def weeksUsedInMonth (assignments : List Assignment) (leaveTypeId : String)
    (date : Day) : List Day :=
  ((assignments.filter (fun a =>
      a.leaveTypeId == leaveTypeId &&
      isDateInRange a.date (getMonthStart date) (getMonthEnd date))).map
    (fun a => getWeekStart a.date)).dedup

/-- Source `isLeaveEligibleForDate` (App.js:225-298).  The quota step calls
`calculateQuotas(leaveTypeId, date)` (App.js:256), which repeats the
category lookup already performed at App.js:226 and necessarily finds the
same record, so it is modelled by `quotasFor leaveType` directly. -/
def isLeaveEligibleForDate (leaveTypes : List LeaveType)
    (assignments : List Assignment) (leaveTypeId : String) (date : Day) : EligResult :=
  match leaveTypes.find? (fun lt => lt.id == leaveTypeId) with
  | none => ⟨false, some "Leave type not found"⟩
  | some leaveType =>
    if !(isDateInRange date leaveType.rules.date_window.start
          leaveType.rules.date_window.endDate) then
      ⟨false, some "Date outside leave window"⟩
    else if dayOfWeekBlocked leaveType date then
      ⟨false, some "Day of week not allowed"⟩
    else if (assignments.find? (fun a =>
        a.date == date && a.leaveTypeId == leaveTypeId)).isSome then
      ⟨false, some "Already assigned"⟩
    else if assignments.any (fun a => a.date == date) then
      ⟨false, some "Date already has another leave assigned"⟩
    else
      let quotas := quotasFor leaveType assignments date
      if leaveType.rules.quotas.weekly.isSome && quotas.remaining.weekly.leZero then
        ⟨false, some "Weekly quota exceeded"⟩
      else if leaveType.rules.quotas.total.isSome && quotas.remaining.total.leZero then
        ⟨false, some "Total quota exceeded"⟩
      else
        match leaveType.rules.quotas.weeks_per_month with
        | none => ⟨true, none⟩
        | some wpm =>
          let weeksUsed := weeksUsedInMonth assignments leaveTypeId date
          let wouldBeNewWeek := !(weeksUsed.contains (getWeekStart date))
          if wouldBeNewWeek && wpm ≤ weeksUsed.length then
            ⟨false, some "Monthly week limit exceeded"⟩
          else
            ⟨true, none⟩

/-! ## Calendar projector (App.js:301-331) -/

/-- Source `DayInfo` (App.js:31-36). -/
structure DayInfo where
  date : Day
  isCurrentMonth : Bool
  assignment : Option Assignment
  eligibleLeaves : List String
deriving Repr, DecidableEq

/-- Source `calendarDays` (App.js:301-331).  `startDate` is `new Date(y, m,
1)` shifted by `setDate(getDate() - getDay() + 1)`, i.e. the first of the
month minus its weekday plus one day; the loop then walks 42 consecutive
days.  `isCurrentMonth` compares month numbers only, exactly as the
source's `getMonth() === month`. -/
def calendarDays (leaveTypes : List LeaveType) (assignments : List Assignment)
    (currentDate : Day) : List DayInfo :=
  let year := getFullYear currentDate
  let month := getMonth currentDate
  let firstDay := daysFromCivil year (month + 1) 1
  let startDate := firstDay - getDay firstDay + 1
  (List.range 42).map (fun i =>
    let d := startDate + i
    { date := d
      isCurrentMonth := getMonth d == month
      assignment := assignments.find? (fun a => a.date == d)
      eligibleLeaves :=
        (leaveTypes.filter (fun lt =>
          (isLeaveEligibleForDate leaveTypes assignments lt.id d).eligible)).map
          (fun lt => lt.id) })

/-! ## Mutation contracts (App.js:364-381)

`assignLeave` appends a fresh `Assignment`; `removeAssignment` filters one
out by id.  The claims quantify over call sequences in which `assignLeave`
is only invoked after `isLeaveEligibleForDate` returned eligible against
the current list, so the mutations become a step relation on assignment
lists (the fresh id and timestamps are arbitrary data). -/

/-- One engine-adjacent mutation of the assignment list. -/
inductive Step (leaveTypes : List LeaveType) :
    List Assignment → List Assignment → Prop where
  | assign (assignments : List Assignment) (date : Day) (leaveTypeId newId : String)
      (eligible : (isLeaveEligibleForDate leaveTypes assignments leaveTypeId date).eligible
        = true) :
      Step leaveTypes assignments
        (assignments ++ [⟨newId, date, leaveTypeId⟩])
  | remove (assignments : List Assignment) (assignmentId : String) :
      Step leaveTypes assignments
        (assignments.filter (fun a => a.id != assignmentId))

/-- Reflexive-transitive closure of `Step`: the assignment lists reachable
by a sequence of guarded `assignLeave` and arbitrary `removeAssignment`
calls. -/
inductive Reach (leaveTypes : List LeaveType) :
    List Assignment → List Assignment → Prop where
  | refl (assignments : List Assignment) : Reach leaveTypes assignments assignments
  | tail {a b c : List Assignment} (hab : Reach leaveTypes a b)
      (hbc : Step leaveTypes b c) : Reach leaveTypes a c

/-- The system-wide invariant: at most one assignment per date. -/
def AtMostOnePerDate (assignments : List Assignment) : Prop :=
  ∀ d : Day, assignments.countP (fun a => a.date == d) ≤ 1

/-! ## Check decomposition of the eligibility evaluator

Each early return of `isLeaveEligibleForDate` as a standalone check
producing `some reason` on failure and `none` on success, in source order;
`firstFail` short-circuits on the first failure. -/

/-- Window check (App.js:230-232). -/
def windowCheck (leaveType : LeaveType) (date : Day) : Option String :=
  if !(isDateInRange date leaveType.rules.date_window.start
        leaveType.rules.date_window.endDate) then
    some "Date outside leave window"
  else none

/-- Day-of-week check (App.js:235-241). -/
def dayOfWeekCheck (leaveType : LeaveType) (date : Day) : Option String :=
  if dayOfWeekBlocked leaveType date then some "Day of week not allowed" else none

/-- Duplicate-category check (App.js:244-247). -/
def duplicateCheck (assignments : List Assignment) (leaveTypeId : String)
    (date : Day) : Option String :=
  if (assignments.find? (fun a => a.date == date && a.leaveTypeId == leaveTypeId)).isSome then
    some "Already assigned"
  else none

/-- Cross-category exclusivity check (App.js:250-253). -/
def crossCategoryCheck (assignments : List Assignment) (date : Day) : Option String :=
  if assignments.any (fun a => a.date == date) then
    some "Date already has another leave assigned"
  else none

/-- Weekly quota check (App.js:258-260). -/
def weeklyQuotaCheck (leaveType : LeaveType) (assignments : List Assignment)
    (date : Day) : Option String :=
  if leaveType.rules.quotas.weekly.isSome &&
      (quotasFor leaveType assignments date).remaining.weekly.leZero then
    some "Weekly quota exceeded"
  else none

/-- Total quota check (App.js:262-264). -/
def totalQuotaCheck (leaveType : LeaveType) (assignments : List Assignment)
    (date : Day) : Option String :=
  if leaveType.rules.quotas.total.isSome &&
      (quotasFor leaveType assignments date).remaining.total.leZero then
    some "Total quota exceeded"
  else none

/-- Weeks-per-month check (App.js:267-295). -/
def weeksPerMonthCheck (leaveType : LeaveType) (assignments : List Assignment)
    (leaveTypeId : String) (date : Day) : Option String :=
  match leaveType.rules.quotas.weeks_per_month with
  | none => none
  | some wpm =>
    let weeksUsed := weeksUsedInMonth assignments leaveTypeId date
    if !(weeksUsed.contains (getWeekStart date)) && wpm ≤ weeksUsed.length then
      some "Monthly week limit exceeded"
    else none

/-- Run an ordered list of check results, stopping at the first failure. -/
def firstFail : List (Option String) → EligResult
  | [] => ⟨true, none⟩
  | none :: rest => firstFail rest
  | some reason :: _ => ⟨false, some reason⟩

/-- The ordered check list of the eligibility evaluator for a found
category. -/
def eligChecks (leaveType : LeaveType) (assignments : List Assignment)
    (leaveTypeId : String) (date : Day) : List (Option String) :=
  [windowCheck leaveType date,
   dayOfWeekCheck leaveType date,
   duplicateCheck assignments leaveTypeId date,
   crossCategoryCheck assignments date,
   weeklyQuotaCheck leaveType assignments date,
   totalQuotaCheck leaveType assignments date,
   weeksPerMonthCheck leaveType assignments leaveTypeId date]

/-! ## Timezone behaviour of `formatDate` / `parseDate` (App.js:39-45)

`parseDate` builds `new Date(s + 'T00:00:00')` — local midnight of the
named day — while `formatDate` takes `toISOString().split('T')[0]` — the
UTC calendar day of the instant.  Instants are minutes since the epoch and
the host timezone is the explicit offset `tz` (local time minus UTC, in
minutes, e.g. +60 for UTC+1). -/

/-- Source `parseDate` (App.js:43-45): the instant at local midnight of the
given calendar day on a host with offset `tz`. -/
def tzParseDate (tz : Int) (day : Day) : Int :=
  day * 1440 - tz

/-- Source `formatDate` (App.js:39-41): the UTC calendar day containing the
instant. -/
def tzFormatDate (instant : Int) : Day :=
  instant.fdiv 1440

/-! ## Seed categories (App.js:72-97), used as concrete inputs -/

/-- Seed category `leave-1` (Mother Leave), engine fields. -/
def seedLeave1 : LeaveType :=
  ⟨"leave-1",
   ⟨⟨dateYmd 2025 7 3, dateYmd 2025 8 2⟩, none, ⟨some 1, some 4, none⟩⟩⟩

/-- Seed category `leave-2` (Therapy Sessions), engine fields. -/
def seedLeave2 : LeaveType :=
  ⟨"leave-2",
   ⟨⟨dateYmd 2025 1 1, dateYmd 2025 12 20⟩, none, ⟨some 3, some 2, none⟩⟩⟩

/-! ## Helper lemmas -/

/-- The eligibility evaluator, for a found category, is exactly the ordered
short-circuiting run of its seven checks. -/
theorem elig_eq_firstFail (lts : List LeaveType) (A : List Assignment)
    (ltid : String) (d : Day) (lt : LeaveType)
    (hf : lts.find? (fun t => t.id == ltid) = some lt) :
    isLeaveEligibleForDate lts A ltid d = firstFail (eligChecks lt A ltid d) := by
  unfold isLeaveEligibleForDate eligChecks windowCheck dayOfWeekCheck
    duplicateCheck crossCategoryCheck weeklyQuotaCheck totalQuotaCheck weeksPerMonthCheck
  rw [hf]
  simp only []
  cases hw : lt.rules.quotas.weeks_per_month <;> simp only [hw] <;>
    split_ifs <;> simp [firstFail]

/-- An eligible verdict implies the date carries no assignment at all: the
cross-category check (App.js:250-253) would otherwise have failed. -/
theorem eligible_any_eq_false (lts : List LeaveType) (A : List Assignment)
    (ltid : String) (d : Day)
    (h : (isLeaveEligibleForDate lts A ltid d).eligible = true) :
    A.any (fun a => a.date == d) = false := by
  by_contra hany
  rw [Bool.not_eq_false] at hany
  revert h
  unfold isLeaveEligibleForDate
  cases hf : lts.find? (fun t => t.id == ltid) with
  | none => simp
  | some lt => simp only [] ; split_ifs <;> simp_all

/-- Appending an assignment on a previously free date preserves the
at-most-one-per-date invariant. -/
theorem atMostOne_append_assign (A : List Assignment) (x : Assignment)
    (hA : AtMostOnePerDate A)
    (hx : A.any (fun a => a.date == x.date) = false) :
    AtMostOnePerDate (A ++ [x]) := by
  intro d
  rw [List.countP_append]
  by_cases hd : x.date = d
  · have hz : A.countP (fun a => a.date == d) = 0 := by
      rw [List.countP_eq_zero]
      intro a ha
      simp only [List.any_eq_false] at hx
      have hne := hx a ha
      simp only [beq_iff_eq] at hne ⊢
      rw [← hd]
      exact hne
    have hone : List.countP (fun a => a.date == d) [x] ≤ 1 := by
      simp only [List.countP_cons, List.countP_nil, decide_eq_true_eq]
      split <;> omega
    omega
  · have hz : List.countP (fun a => a.date == d) [x] = 0 := by
      simp [List.countP_cons, hd]
    have := hA d
    omega

/-- Every single guarded mutation preserves the invariant. -/
theorem step_preserves (lts : List LeaveType) {A B : List Assignment}
    (h : Step lts A B) (hA : AtMostOnePerDate A) : AtMostOnePerDate B := by
  cases h with
  | assign d ltid newId helig =>
    exact atMostOne_append_assign A _ hA (eligible_any_eq_false lts A ltid d helig)
  | remove aid =>
    intro d
    exact le_trans (List.Sublist.countP_le _ (List.filter_sublist A)) (hA d)

/-- Every reachable assignment list preserves the invariant. -/
theorem reach_preserves (lts : List LeaveType) {A0 A : List Assignment}
    (h0 : AtMostOnePerDate A0) (h : Reach lts A0 A) : AtMostOnePerDate A := by
  induction h with
  | refl => exact h0
  | tail hab hbc ih => exact step_preserves lts hbc ih

/-! ## Claims -/

/-- C1: for every sequence of mutations in which `assignLeave(date,
categoryId)` is only invoked when `isLeaveEligibleForDate(categoryId,
date)` returned eligible against the current assignment list, and
`removeAssignment` may be invoked at any time, every reachable assignment
list contains at most one `Assignment` per date, system-wide across all
categories. -/
theorem c1_at_most_one_assignment_per_date
    (leaveTypes : List LeaveType) (init reached : List Assignment)
    (hinit : AtMostOnePerDate init)
    (hreach : Reach leaveTypes init reached) :
    AtMostOnePerDate reached :=
  reach_preserves leaveTypes hinit hreach

/-- Witness for C1: starting from the empty store, one eligible
`assignLeave` of the seed category on 2025-07-07 reaches a list that still
satisfies the invariant. -/
theorem c1_at_most_one_assignment_per_date_witness :
    AtMostOnePerDate ([] : List Assignment) ∧
    AtMostOnePerDate ([] ++ [⟨"a1", dateYmd 2025 7 7, "leave-1"⟩]) :=
  ⟨fun _ => by simp,
   c1_at_most_one_assignment_per_date [seedLeave1] []
     ([] ++ [⟨"a1", dateYmd 2025 7 7, "leave-1"⟩])
     (fun _ => by simp)
     (Reach.tail (Reach.refl [])
       (Step.assign [] (dateYmd 2025 7 7) "leave-1" "a1" (by decide)))⟩

/-- A category with a window but no quota dimensions configured, for
concrete instantiations. -/
def noQuotaLeave : LeaveType :=
  ⟨"leave-nq", ⟨⟨dateYmd 2025 1 1, dateYmd 2025 12 31⟩, none, ⟨none, none, none⟩⟩⟩

/-- C5: for every category C, every date D strictly outside C's inclusive
`date_window` (compared as canonical `YYYY-MM-DD` strings), and every
assignment list, `evaluateEligibility(C, D, assignments)` returns
`eligible = false` with the outside-leave-window reason (source string
`"Date outside leave window"`). -/
theorem c5_outside_window_ineligible
    (lts : List LeaveType) (A : List Assignment) (ltid : String) (d : Day)
    (lt : LeaveType) (hf : lts.find? (fun t => t.id == ltid) = some lt)
    (hout : isDateInRange d lt.rules.date_window.start lt.rules.date_window.endDate
      = false) :
    isLeaveEligibleForDate lts A ltid d = ⟨false, some "Date outside leave window"⟩ := by
  unfold isLeaveEligibleForDate
  rw [hf]
  simp [hout]

/-- Witness for C5: the seed category (window 2025-07-03..2025-08-02)
queried on 2025-09-01. -/
theorem c5_outside_window_ineligible_witness :
    [seedLeave1].find? (fun t => t.id == "leave-1") = some seedLeave1 ∧
    isDateInRange (dateYmd 2025 9 1) seedLeave1.rules.date_window.start
      seedLeave1.rules.date_window.endDate = false ∧
    isLeaveEligibleForDate [seedLeave1] [] "leave-1" (dateYmd 2025 9 1)
      = ⟨false, some "Date outside leave window"⟩ :=
  ⟨by decide, by decide,
   c5_outside_window_ineligible [seedLeave1] [] "leave-1" (dateYmd 2025 9 1)
     seedLeave1 (by decide) (by decide)⟩

/-- C7: for every category on which a given quota dimension (weekly,
weeks_per_month, or total) is not configured, that dimension's remaining
value is unbounded (`Infinity`) and that dimension never causes
`evaluateEligibility` to return ineligible, for any date and assignment
list; absence of a quota is never treated as a cap of zero or as an
error. -/
theorem c7_unconfigured_quota_never_blocks
    (lts : List LeaveType) (A : List Assignment) (ltid : String) (d now : Day)
    (lt : LeaveType) (hf : lts.find? (fun t => t.id == ltid) = some lt) :
    (lt.rules.quotas.weekly = none →
      (calculateQuotas lts A ltid (some d) now).map (fun q => q.remaining.weekly)
        = some ENum.inf ∧
      (isLeaveEligibleForDate lts A ltid d).reason ≠ some "Weekly quota exceeded") ∧
    (lt.rules.quotas.total = none →
      (calculateQuotas lts A ltid (some d) now).map (fun q => q.remaining.total)
        = some ENum.inf ∧
      (isLeaveEligibleForDate lts A ltid d).reason ≠ some "Total quota exceeded") ∧
    (lt.rules.quotas.weeks_per_month = none →
      (calculateQuotas lts A ltid (some d) now).map (fun q => q.remaining.weeksThisMonth)
        = some ENum.inf ∧
      (isLeaveEligibleForDate lts A ltid d).reason ≠ some "Monthly week limit exceeded") := by
  refine ⟨fun hw => ⟨?_, ?_⟩, fun hw => ⟨?_, ?_⟩, fun hw => ⟨?_, ?_⟩⟩ <;>
    first
    | (unfold calculateQuotas quotasFor
       rw [hf]
       simp [hw, ENum.ofOption, ENum.sub])
    | (unfold isLeaveEligibleForDate
       rw [hf]
       simp only []
       split_ifs <;> (try simp_all [ENum.ofOption, quotasFor])
       all_goals (split <;> (try simp_all))
       all_goals (split <;> simp_all))

/-- Witness for C7: a category with no quota dimensions configured has
unbounded weekly remaining and is never blocked by the weekly dimension. -/
theorem c7_unconfigured_quota_never_blocks_witness :
    (calculateQuotas [noQuotaLeave] [] "leave-nq" (some (dateYmd 2025 7 7))
        (dateYmd 2025 7 7)).map (fun q => q.remaining.weekly) = some ENum.inf ∧
    (isLeaveEligibleForDate [noQuotaLeave] [] "leave-nq" (dateYmd 2025 7 7)).reason
      ≠ some "Weekly quota exceeded" :=
  (c7_unconfigured_quota_never_blocks [noQuotaLeave] [] "leave-nq"
    (dateYmd 2025 7 7) (dateYmd 2025 7 7) noQuotaLeave (by decide)).1 (by decide)

/-- C8: for every category id that matches no category in the category
list, and every date and assignment list, `evaluateEligibility` returns
`eligible = false` with the dedicated category-not-found reason as data
(source string `"Leave type not found"`), and the quota evaluator returns
its empty result, rather than throwing or crashing (the embedding is a
total function). -/
theorem c8_unknown_category_reported_as_data
    (lts : List LeaveType) (A : List Assignment) (ltid : String) (d : Day)
    (targetDate : Option Day) (now : Day)
    (hf : lts.find? (fun t => t.id == ltid) = none) :
    isLeaveEligibleForDate lts A ltid d = ⟨false, some "Leave type not found"⟩ ∧
    calculateQuotas lts A ltid targetDate now = none := by
  constructor
  · unfold isLeaveEligibleForDate
    rw [hf]
  · unfold calculateQuotas
    rw [hf]

/-- Witness for C8: a dangling category id against the seed category
list. -/
theorem c8_unknown_category_reported_as_data_witness :
    isLeaveEligibleForDate [seedLeave1] [] "leave-deleted" (dateYmd 2025 7 7)
      = ⟨false, some "Leave type not found"⟩ ∧
    calculateQuotas [seedLeave1] [] "leave-deleted" none (dateYmd 2025 7 7) = none :=
  c8_unknown_category_reported_as_data [seedLeave1] [] "leave-deleted"
    (dateYmd 2025 7 7) none (dateYmd 2025 7 7) (by decide)

/-- C6: for every category id, as-of date, and assignment list, the quota
evaluation equals the quota evaluation over the sublist of assignments of
that category; equivalently, adding an assignment of any other category
never changes any used or remaining count reported for it. -/
theorem c6_quotas_ignore_other_categories
    (lts : List LeaveType) (A : List Assignment) (ltid : String)
    (targetDate : Option Day) (now : Day) (x : Assignment)
    (hx : x.leaveTypeId ≠ ltid) :
    calculateQuotas lts A ltid targetDate now
      = calculateQuotas lts (A.filter (fun a => a.leaveTypeId == ltid)) ltid
          targetDate now ∧
    calculateQuotas lts (x :: A) ltid targetDate now
      = calculateQuotas lts A ltid targetDate now := by
  have hfilter : ∀ (B : List Assignment) (lt : LeaveType),
      lts.find? (fun t => t.id == ltid) = some lt →
      (B.filter (fun a => a.leaveTypeId == ltid)).filter
        (fun a => a.leaveTypeId == lt.id) = B.filter (fun a => a.leaveTypeId == lt.id) := by
    intro B lt hf
    have hid : lt.id = ltid := by
      have := List.find?_some hf
      simpa using this
    rw [hid, List.filter_filter]
    simp
  constructor
  · unfold calculateQuotas
    cases hf : lts.find? (fun t => t.id == ltid) with
    | none => rfl
    | some lt =>
      simp only []
      unfold quotasFor
      rw [hfilter A lt hf]
  · unfold calculateQuotas
    cases hf : lts.find? (fun t => t.id == ltid) with
    | none => rfl
    | some lt =>
      have hid : lt.id = ltid := by
        have := List.find?_some hf
        simpa using this
      simp only []
      unfold quotasFor
      have : (x :: A).filter (fun a => a.leaveTypeId == lt.id)
          = A.filter (fun a => a.leaveTypeId == lt.id) := by
        rw [List.filter_cons]
        simp [hid, hx]
      rw [this]

/-- Witness for C6: adding a `leave-2` assignment leaves the `leave-1`
quota result unchanged. -/
theorem c6_quotas_ignore_other_categories_witness :
    calculateQuotas [seedLeave1, seedLeave2]
        [⟨"a1", dateYmd 2025 7 7, "leave-1"⟩] "leave-1"
        (some (dateYmd 2025 7 9)) (dateYmd 2025 7 9)
      = calculateQuotas [seedLeave1, seedLeave2]
          ([⟨"a1", dateYmd 2025 7 7, "leave-1"⟩].filter
            (fun a => a.leaveTypeId == "leave-1")) "leave-1"
          (some (dateYmd 2025 7 9)) (dateYmd 2025 7 9) ∧
    calculateQuotas [seedLeave1, seedLeave2]
        (⟨"b1", dateYmd 2025 7 8, "leave-2"⟩ :: [⟨"a1", dateYmd 2025 7 7, "leave-1"⟩])
        "leave-1" (some (dateYmd 2025 7 9)) (dateYmd 2025 7 9)
      = calculateQuotas [seedLeave1, seedLeave2]
          [⟨"a1", dateYmd 2025 7 7, "leave-1"⟩] "leave-1"
          (some (dateYmd 2025 7 9)) (dateYmd 2025 7 9) :=
  c6_quotas_ignore_other_categories [seedLeave1, seedLeave2]
    [⟨"a1", dateYmd 2025 7 7, "leave-1"⟩] "leave-1"
    (some (dateYmd 2025 7 9)) (dateYmd 2025 7 9)
    ⟨"b1", dateYmd 2025 7 8, "leave-2"⟩ (by decide)

/-- C9: `evaluateEligibility` and `evaluateQuotas` are deterministic pure
functions: two calls with identical inputs (category list, assignment
list, category id, date / as-of date, and the clock value the source reads
when no as-of date is supplied) yield identical outputs.  In the embedding
every input the source reads — including the host clock for the defaulted
as-of date — is an explicit argument, so the outputs are determined by the
listed inputs alone. -/
theorem c9_evaluators_deterministic
    (lts1 lts2 : List LeaveType) (A1 A2 : List Assignment) (ltid1 ltid2 : String)
    (d1 d2 : Day) (t1 t2 : Option Day) (n1 n2 : Day)
    (hlts : lts1 = lts2) (hA : A1 = A2) (hid : ltid1 = ltid2) (hd : d1 = d2)
    (ht : t1 = t2) (hn : n1 = n2) :
    isLeaveEligibleForDate lts1 A1 ltid1 d1 = isLeaveEligibleForDate lts2 A2 ltid2 d2 ∧
    calculateQuotas lts1 A1 ltid1 t1 n1 = calculateQuotas lts2 A2 ltid2 t2 n2 := by
  subst hlts hA hid hd ht hn
  exact ⟨rfl, rfl⟩

/-- Witness for C9: two identical calls on the seed data agree. -/
theorem c9_evaluators_deterministic_witness :
    isLeaveEligibleForDate [seedLeave1] [] "leave-1" (dateYmd 2025 7 7)
      = isLeaveEligibleForDate [seedLeave1] [] "leave-1" (dateYmd 2025 7 7) ∧
    calculateQuotas [seedLeave1] [] "leave-1" none (dateYmd 2025 7 7)
      = calculateQuotas [seedLeave1] [] "leave-1" none (dateYmd 2025 7 7) :=
  c9_evaluators_deterministic [seedLeave1] [seedLeave1] [] [] "leave-1" "leave-1"
    (dateYmd 2025 7 7) (dateYmd 2025 7 7) none none (dateYmd 2025 7 7) (dateYmd 2025 7 7)
    rfl rfl rfl rfl rfl rfl

/-- C4 (code bug, exhibited at June 2025): the claim says the grid begins
on the Monday on or before the first day of the reference date's month,
with the leading and trailing runs of `isCurrentMonth = false` days each of
length 0 to 6.  `calendarDays` computes its start as
`getDate() - getDay() + 1` with no Sunday special case (App.js:307), unlike
`getWeekStart` (App.js:50), so when the month's first day is a Sunday the
grid starts on the 2nd — the Monday after the 1st, not the Monday on or
before it (which `getWeekStart` correctly gives as 2025-05-26).  June 2025
starts on a Sunday: the 42-cell grid runs 2025-06-02 .. 2025-07-13, omits
2025-06-01 entirely, and its trailing out-of-month run has length 13. -/
theorem c4_sunday_start_month_breaks_grid :
    getDay (dateYmd 2025 6 1) = 0 ∧
    getWeekStart (dateYmd 2025 6 1) = dateYmd 2025 5 26 ∧
    (calendarDays [] [] (dateYmd 2025 6 15)).map (fun di => di.date)
      = (List.range 42).map (fun i => dateYmd 2025 6 2 + i) ∧
    (calendarDays [] [] (dateYmd 2025 6 15)).all
      (fun di => di.date != dateYmd 2025 6 1) = true ∧
    ((calendarDays [] [] (dateYmd 2025 6 15)).take 29).all
      (fun di => di.isCurrentMonth) = true ∧
    ((calendarDays [] [] (dateYmd 2025 6 15)).drop 29).all
      (fun di => !di.isCurrentMonth) = true ∧
    ((calendarDays [] [] (dateYmd 2025 6 15)).drop 29).length = 13 :=
  ⟨by decide, by decide, by decide, by decide, by decide, by decide, by decide⟩

/-- C10 (code bug, host-timezone dependence): `formatDate ∘ parseDate` is
the identity on calendar days only when the host offset is not east of
UTC.  `parseDate` builds local midnight of the named day while `formatDate`
reads the UTC day via `toISOString`, so on a UTC+1 host (offset +60
minutes) the round trip maps 2025-07-07 to 2025-07-06 — a day shifted by
the host timezone, contradicting the claim; at UTC (offset 0) the round
trip is the identity as claimed. -/
theorem c10_roundtrip_shifts_on_east_of_utc_hosts :
    (∀ d : Day, tzFormatDate (tzParseDate 0 d) = d) ∧
    tzFormatDate (tzParseDate 60 (dateYmd 2025 7 7)) = dateYmd 2025 7 6 := by
  refine ⟨fun d => ?_, by decide⟩
  unfold tzFormatDate tzParseDate
  have h : d * 1440 - 0 = d * 1440 := by ring
  rw [h, Int.fdiv_eq_ediv _ (by norm_num)]
  exact Int.mul_ediv_cancel d (by norm_num)

/-- A reason produced by the short-circuiting run is the value of one of
the checks in the list. -/
theorem firstFail_reason_mem (cs : List (Option String)) (r : String)
    (h : (firstFail cs).reason = some r) : some r ∈ cs := by
  induction cs with
  | nil => simp [firstFail] at h
  | cons c rest ih =>
    cases c with
    | none =>
      simp only [firstFail] at h
      exact List.mem_cons_of_mem _ (ih h)
    | some x =>
      simp only [firstFail] at h
      simp only [Option.some.injEq] at h
      rw [h]
      exact List.mem_cons_self _ _

/-- A category restricted to Mondays with a weekly cap of one day, window
July 2025, for concrete instantiations. -/
def dowFilteredLeave : LeaveType :=
  ⟨"leave-dow", ⟨⟨dateYmd 2025 7 1, dateYmd 2025 7 31⟩, some [1], ⟨some 1, none, none⟩⟩⟩

/-- An unrestricted second category, for concrete instantiations. -/
def plainLeave : LeaveType :=
  ⟨"leave-oth", ⟨⟨dateYmd 2025 1 1, dateYmd 2025 12 31⟩, none, ⟨none, none, none⟩⟩⟩

/-- A category with a weekly cap of one day and no other restrictions,
window July 2025, for concrete instantiations. -/
def weeklyCappedLeave : LeaveType :=
  ⟨"leave-w", ⟨⟨dateYmd 2025 7 1, dateYmd 2025 7 31⟩, none, ⟨some 1, none, none⟩⟩⟩

/-- Counterexample for C2 as stated: 2025-07-08 (a Tuesday) is inside the
category's window, already carries another category's assignment, and the
weekly quota is exhausted, yet the returned reason is the day-of-week
reason — the cross-category reason is only guaranteed when the earlier
checks pass. -/
theorem c2_counterexample :
    isDateInRange (dateYmd 2025 7 8) dowFilteredLeave.rules.date_window.start
      dowFilteredLeave.rules.date_window.endDate = true ∧
    ([⟨"b1", dateYmd 2025 7 8, "leave-oth"⟩,
      ⟨"a1", dateYmd 2025 7 7, "leave-dow"⟩] : List Assignment).any
      (fun a => a.date == dateYmd 2025 7 8 && a.leaveTypeId != "leave-dow") = true ∧
    ((quotasFor dowFilteredLeave
        [⟨"b1", dateYmd 2025 7 8, "leave-oth"⟩, ⟨"a1", dateYmd 2025 7 7, "leave-dow"⟩]
        (dateYmd 2025 7 8)).remaining.weekly).leZero = true ∧
    isLeaveEligibleForDate [dowFilteredLeave, plainLeave]
        [⟨"b1", dateYmd 2025 7 8, "leave-oth"⟩, ⟨"a1", dateYmd 2025 7 7, "leave-dow"⟩]
        "leave-dow" (dateYmd 2025 7 8)
      = ⟨false, some "Day of week not allowed"⟩ ∧
    some "Day of week not allowed" ≠ some "Date already has another leave assigned" :=
  ⟨by decide, by decide, by decide, by decide, by decide⟩

/-- C2 (amended): `evaluateEligibility` applies its checks in the fixed
order window, day-of-week, duplicate-category, cross-category exclusivity,
weekly quota, total quota, weeks-per-month, short-circuiting on the first
failure; in particular, for any date inside the category's window that
also passes the day-of-week filter and carries no assignment of this same
category, but already carries another category's assignment and would also
exceed a quota, the returned reason is the cross-category-occupied reason,
not a quota reason. -/
theorem c2_fixed_order_and_cross_category_priority
    (lts : List LeaveType) (A : List Assignment) (ltid : String) (d : Day)
    (lt : LeaveType) (hf : lts.find? (fun t => t.id == ltid) = some lt) :
    isLeaveEligibleForDate lts A ltid d = firstFail (eligChecks lt A ltid d) ∧
    (windowCheck lt d = none → dayOfWeekCheck lt d = none →
     duplicateCheck A ltid d = none →
     A.any (fun a => a.date == d) = true →
     (weeklyQuotaCheck lt A d ≠ none ∨ totalQuotaCheck lt A d ≠ none ∨
      weeksPerMonthCheck lt A ltid d ≠ none) →
     isLeaveEligibleForDate lts A ltid d
       = ⟨false, some "Date already has another leave assigned"⟩) := by
  refine ⟨elig_eq_firstFail lts A ltid d lt hf, ?_⟩
  intro h1 h2 h3 h4 _
  rw [elig_eq_firstFail lts A ltid d lt hf]
  unfold eligChecks
  rw [h1, h2, h3]
  unfold crossCategoryCheck
  rw [h4]
  simp [firstFail]

/-- Witness for C2 (amended): a weekly-capped category on a date already
holding another category's leave, with the weekly quota exhausted, returns
the cross-category reason. -/
theorem c2_fixed_order_and_cross_category_priority_witness :
    [weeklyCappedLeave, plainLeave].find? (fun t => t.id == "leave-w")
      = some weeklyCappedLeave ∧
    windowCheck weeklyCappedLeave (dateYmd 2025 7 8) = none ∧
    dayOfWeekCheck weeklyCappedLeave (dateYmd 2025 7 8) = none ∧
    duplicateCheck
      [⟨"b1", dateYmd 2025 7 8, "leave-oth"⟩, ⟨"a1", dateYmd 2025 7 7, "leave-w"⟩]
      "leave-w" (dateYmd 2025 7 8) = none ∧
    ([⟨"b1", dateYmd 2025 7 8, "leave-oth"⟩,
      ⟨"a1", dateYmd 2025 7 7, "leave-w"⟩] : List Assignment).any
      (fun a => a.date == dateYmd 2025 7 8) = true ∧
    weeklyQuotaCheck weeklyCappedLeave
      [⟨"b1", dateYmd 2025 7 8, "leave-oth"⟩, ⟨"a1", dateYmd 2025 7 7, "leave-w"⟩]
      (dateYmd 2025 7 8) ≠ none ∧
    isLeaveEligibleForDate [weeklyCappedLeave, plainLeave]
        [⟨"b1", dateYmd 2025 7 8, "leave-oth"⟩, ⟨"a1", dateYmd 2025 7 7, "leave-w"⟩]
        "leave-w" (dateYmd 2025 7 8)
      = ⟨false, some "Date already has another leave assigned"⟩ :=
  ⟨by decide, by decide, by decide, by decide, by decide, by decide,
   (c2_fixed_order_and_cross_category_priority [weeklyCappedLeave, plainLeave]
      [⟨"b1", dateYmd 2025 7 8, "leave-oth"⟩, ⟨"a1", dateYmd 2025 7 7, "leave-w"⟩]
      "leave-w" (dateYmd 2025 7 8) weeklyCappedLeave (by decide)).2
     (by decide) (by decide) (by decide) (by decide) (Or.inl (by decide))⟩

/-- A category capped at one distinct week per month, window July 2025,
no other quotas, for concrete instantiations. -/
def wpmOneLeave : LeaveType :=
  ⟨"leave-wpm", ⟨⟨dateYmd 2025 7 1, dateYmd 2025 7 31⟩, none, ⟨none, some 1, none⟩⟩⟩

/-- A category capped at two distinct weeks per month, window July 2025,
no other quotas, for concrete instantiations. -/
def wpmTwoLeave : LeaveType :=
  ⟨"leave-wpm2", ⟨⟨dateYmd 2025 7 1, dateYmd 2025 7 31⟩, none, ⟨none, some 2, none⟩⟩⟩

/-- Counterexample for C3 as stated: with `max_weeks = 1` and two distinct
weeks already used (size 2 ≠ 1), a date in a third distinct week is still
blocked with the monthly reason — the source blocks when the set's size is
at least `max_weeks`, not exactly equal to it. -/
theorem c3_counterexample :
    wpmOneLeave.rules.quotas.weeks_per_month = some 1 ∧
    (weeksUsedInMonth
        [⟨"a1", dateYmd 2025 7 7, "leave-wpm"⟩, ⟨"a2", dateYmd 2025 7 14, "leave-wpm"⟩]
        "leave-wpm" (dateYmd 2025 7 21)).contains
      (getWeekStart (dateYmd 2025 7 21)) = false ∧
    (weeksUsedInMonth
        [⟨"a1", dateYmd 2025 7 7, "leave-wpm"⟩, ⟨"a2", dateYmd 2025 7 14, "leave-wpm"⟩]
        "leave-wpm" (dateYmd 2025 7 21)).length ≠ 1 ∧
    isLeaveEligibleForDate [wpmOneLeave]
        [⟨"a1", dateYmd 2025 7 7, "leave-wpm"⟩, ⟨"a2", dateYmd 2025 7 14, "leave-wpm"⟩]
        "leave-wpm" (dateYmd 2025 7 21)
      = ⟨false, some "Monthly week limit exceeded"⟩ :=
  ⟨by decide, by decide, by decide, by decide⟩

/-- C3 (amended): for every category with a weeks_per_month quota, when the
six earlier checks pass, `evaluateEligibility` blocks with the monthly
reason exactly when the target date's week-start is not among the distinct
week-starts already used by this category within the target date's month
and that set's size is already at least `max_weeks`; and whenever the
target date's week-start is already one of the used weeks, the
weeks-per-month check never blocks, regardless of how many assignments
that week already holds. -/
theorem c3_weeks_per_month_boundary
    (lts : List LeaveType) (A : List Assignment) (ltid : String) (d : Day)
    (lt : LeaveType) (maxW : Nat)
    (hf : lts.find? (fun t => t.id == ltid) = some lt)
    (hw : lt.rules.quotas.weeks_per_month = some maxW) :
    (windowCheck lt d = none → dayOfWeekCheck lt d = none →
     duplicateCheck A ltid d = none → crossCategoryCheck A d = none →
     weeklyQuotaCheck lt A d = none → totalQuotaCheck lt A d = none →
     (isLeaveEligibleForDate lts A ltid d
        = ⟨false, some "Monthly week limit exceeded"⟩
       ↔ ((weeksUsedInMonth A ltid d).contains (getWeekStart d) = false ∧
          maxW ≤ (weeksUsedInMonth A ltid d).length))) ∧
    ((weeksUsedInMonth A ltid d).contains (getWeekStart d) = true →
     (isLeaveEligibleForDate lts A ltid d).reason
       ≠ some "Monthly week limit exceeded") := by
  constructor
  · intro h1 h2 h3 h4 h5 h6
    rw [elig_eq_firstFail lts A ltid d lt hf]
    unfold eligChecks
    rw [h1, h2, h3, h4, h5, h6]
    unfold weeksPerMonthCheck
    rw [hw]
    simp only [firstFail]
    split_ifs with hcond
    · simp only [Bool.and_eq_true, Bool.not_eq_true', decide_eq_true_eq] at hcond
      have hnotmem : getWeekStart d ∉ weeksUsedInMonth A ltid d := by
        intro hmem
        have hc := hcond.1
        have ht : (weeksUsedInMonth A ltid d).contains (getWeekStart d) = true := by
          rw [List.contains_iff_exists_mem_beq]
          exact ⟨getWeekStart d, hmem, by simp⟩
        rw [ht] at hc
        exact absurd hc (by simp)
      simp [firstFail, hcond.1, hcond.2, hnotmem]
    · simp only [Bool.and_eq_true, Bool.not_eq_true', decide_eq_true_eq, not_and] at hcond
      constructor
      · intro hcontra
        simp [firstFail] at hcontra
      · intro hc
        exact absurd (hcond hc.1) (by omega)
  · intro hcontains hreason
    have hmem := firstFail_reason_mem _ _
      (by rw [← elig_eq_firstFail lts A ltid d lt hf]; exact hreason)
    unfold eligChecks at hmem
    simp only [List.mem_cons, List.not_mem_nil, or_false] at hmem
    rcases hmem with h | h | h | h | h | h | h
    · unfold windowCheck at h
      split at h <;> simp_all
    · unfold dayOfWeekCheck at h
      split at h <;> simp_all
    · unfold duplicateCheck at h
      split at h <;> simp_all
    · unfold crossCategoryCheck at h
      split at h <;> simp_all
    · unfold weeklyQuotaCheck at h
      split at h <;> simp_all
    · unfold totalQuotaCheck at h
      split at h <;> simp_all
    · unfold weeksPerMonthCheck at h
      rw [hw] at h
      simp only [hcontains] at h
      simp at h

/-- Witness for C3 (amended), on the spec's own boundary scenario: with
`max_weeks = 2` and two distinct weeks used (2025-07-07, 2025-07-14), a
third-week date 2025-07-21 is blocked with the monthly reason, while
2025-07-08 in an already-used week is not blocked by this dimension. -/
theorem c3_weeks_per_month_boundary_witness :
    isLeaveEligibleForDate [wpmTwoLeave]
        [⟨"a1", dateYmd 2025 7 7, "leave-wpm2"⟩, ⟨"a2", dateYmd 2025 7 14, "leave-wpm2"⟩]
        "leave-wpm2" (dateYmd 2025 7 21)
      = ⟨false, some "Monthly week limit exceeded"⟩ ∧
    (isLeaveEligibleForDate [wpmTwoLeave]
        [⟨"a1", dateYmd 2025 7 7, "leave-wpm2"⟩, ⟨"a2", dateYmd 2025 7 14, "leave-wpm2"⟩]
        "leave-wpm2" (dateYmd 2025 7 8)).reason
      ≠ some "Monthly week limit exceeded" :=
  ⟨((c3_weeks_per_month_boundary [wpmTwoLeave]
      [⟨"a1", dateYmd 2025 7 7, "leave-wpm2"⟩, ⟨"a2", dateYmd 2025 7 14, "leave-wpm2"⟩]
      "leave-wpm2" (dateYmd 2025 7 21) wpmTwoLeave 2 (by decide) (by decide)).1
      (by decide) (by decide) (by decide) (by decide) (by decide) (by decide)).mpr
      ⟨by decide, by decide⟩,
   (c3_weeks_per_month_boundary [wpmTwoLeave]
      [⟨"a1", dateYmd 2025 7 7, "leave-wpm2"⟩, ⟨"a2", dateYmd 2025 7 14, "leave-wpm2"⟩]
      "leave-wpm2" (dateYmd 2025 7 8) wpmTwoLeave 2 (by decide) (by decide)).2
      (by decide)⟩
